import Mathlib

/-
  Verification of the key-derivation / envelope-encryption core of the
  privacy-notes-app repository (src/privacy-notes-app/crypto.js).

  Modelling conventions (shallow embedding):
  * `localStorage` is an association list from string keys to stored values.
  * The Web Crypto primitives (PBKDF2 via crypto.subtle.deriveKey and
    AES-GCM via crypto.subtle.encrypt/decrypt) are platform code, not part
    of this repository; they are embedded symbolically as an ideal KDF and
    an ideal AEAD: a derived key is the pair (passphrase, salt) and a
    GCM ciphertext is an opaque constructor recording the key, the iv and
    the plaintext, which opens iff queried with the same key and iv.
    The base64 text encoding of an envelope (btoa/atob in crypto.js) is an
    injective, invertible wrapper and is modelled structurally: an envelope
    is kept as a constructor carrying the prepended iv and the ciphertext,
    and its stored text form is abstracted by a fixed nonempty placeholder
    string where only truthiness matters.
  * `crypto.getRandomValues` is modelled by a random tape
    (a function Nat -> Nat) with a read position in the state.
  * JavaScript truthiness of stored values: null and the empty string are
    falsy, every other string (in particular any base64 envelope) is truthy.
-/

namespace PrivacyNotes

/-- Symbolic model of a key produced by `deriveKey` in crypto.js
(PBKDF2 over the passphrase and salt; deterministic, ideally injective). -/
structure DKey where
  pass : String
  salt : List Nat
deriving DecidableEq, Repr

/-- A value held in a localStorage slot or in a note field: either a plain
string, or an envelope `vEnv iv ctKey ctIv ctData` — the iv prepended by
`encrypt` together with the ideal AES-GCM ciphertext (key, iv, plaintext)
produced by `crypto.subtle.encrypt`. -/
inductive Val : Type where
  | vStr : String → Val
  | vEnv : List Nat → DKey → List Nat → Val → Val
deriving DecidableEq, Repr

/-- The string form of a value as JavaScript sees it: a plain string is
itself; the base64 text of an envelope is abstracted by a fixed nonempty
placeholder (only its truthiness is ever inspected by crypto.js). -/
def Val.asString : Val → String
  | .vStr s => s
  | .vEnv _ _ _ _ => "ciphertext"

/-- JavaScript truthiness of `localStorage.getItem`: null is falsy, the
empty string is falsy, every other string is truthy. -/
def truthy (o : Option Val) : Bool :=
  match o with
  | none => false
  | some v => v.asString != ""

/-- Truthiness of a note field (`if (note.title)` etc. in crypto.js). -/
def truthyV (v : Val) : Bool := v.asString != ""

/-- The localStorage model: an association list, most recent entry first. -/
abbrev Store := List (String × Val)

/-- `localStorage.getItem`. -/
def getItem (store : Store) (k : String) : Option Val :=
  (store.find? (fun p => p.1 == k)).map (·.2)

/-- `localStorage.setItem`. -/
def setItem (store : Store) (k : String) (v : Val) : Store :=
  (k, v) :: store

/-- `localStorage.removeItem`. -/
def removeItem (store : Store) (k : String) : Store :=
  store.filter (fun p => p.1 != k)

/-- One hex digit, as produced by `b.toString(16)` (lowercase). -/
def hexDigit (n : Nat) : Char :=
  if n < 10 then Char.ofNat (48 + n) else Char.ofNat (87 + n)

/-- Two-character hex form of one byte: `b.toString(16).padStart(2, "0")`. -/
def byteToHexChars (b : Nat) : List Char :=
  [hexDigit (b / 16), hexDigit (b % 16)]

/-- Hex encoding of a byte array, as in crypto.js line 59/116:
`Array.from(saltArray).map(b => ...).join("")`. -/
def bytesToHex (bs : List Nat) : String :=
  String.mk (bs.flatMap byteToHexChars)

/-- Numeric value of one hex character (`parseInt(c, 16)` on lowercase hex). -/
def hexVal (c : Char) : Nat :=
  if c.toNat ≤ 57 then c.toNat - 48 else c.toNat - 87

/-- Pairing of hex characters, as in `salt.match(/.{1,2}/g)` followed by
`parseInt(byte, 16)` per chunk. -/
def hexPairs : List Char → List Nat
  | c1 :: c2 :: rest => (hexVal c1 * 16 + hexVal c2) :: hexPairs rest
  | [c] => [hexVal c]
  | [] => []

/-- Hex decoding of a stored salt string (crypto.js line 64). -/
def hexToBytes (s : String) : List Nat := hexPairs s.data

/-- Reading `n` random bytes from the tape starting at position `pos`
(models `crypto.getRandomValues(new Uint8Array(n))`). -/
def tapeBytes (tape : Nat → Nat) : Nat → Nat → List Nat
  | _, 0 => []
  | pos, n + 1 => tape pos % 256 :: tapeBytes tape (pos + 1) n

/-- The state of a CryptoManager instance together with its environment:
`key`/`userId` are the instance fields, `store` is localStorage, and
`tape`/`pos` model the stream of secure random bytes. -/
structure CryptoSt where
  key : Option DKey
  userId : Option String
  store : Store
  tape : Nat → Nat
  pos : Nat

/-- `CryptoManager.deriveKey` (crypto.js lines 19-44): ideal PBKDF2, a
deterministic function of (passphrase, salt). -/
def deriveKey (passphrase : String) (salt : List Nat) : DKey :=
  ⟨passphrase, salt⟩

def authFailureMsg : String :=
  "Failed to decrypt data - invalid passphrase or corrupted data"

def notInitializedMsg : String :=
  "Crypto not initialized. Call initialize() first."

/-- `CryptoManager.encrypt` (crypto.js lines 170-202): throws when no key is
held; otherwise draws a fresh 12-byte iv, encrypts under the active key and
returns the envelope iv‖ciphertext. -/
def encrypt (st : CryptoSt) (data : Val) : Except String (Val × CryptoSt) :=
  match st.key with
  | none => .error notInitializedMsg
  | some k =>
      let iv := tapeBytes st.tape st.pos 12
      .ok (Val.vEnv iv k iv data, { st with pos := st.pos + 12 })

/-- Opening one envelope under key `k`: the split into iv and ciphertext
(crypto.js lines 221-222) followed by ideal AES-GCM decryption, which
succeeds iff the ciphertext was produced under the same key and iv; a plain
string is not a well-formed envelope and fails authentication. -/
def openEnvelope (k : DKey) : Val → Except String Val
  | .vStr _ => .error authFailureMsg
  | .vEnv iv ctKey ctIv ctData =>
      if ctKey = k ∧ ctIv = iv then .ok ctData else .error authFailureMsg

/-- `CryptoManager.decrypt` (crypto.js lines 209-239): throws when no key is
held; otherwise opens the envelope under the active key. -/
def decrypt (st : CryptoSt) (v : Val) : Except String Val :=
  match st.key with
  | none => .error notInitializedMsg
  | some k => openEnvelope k v

/-- The fixed validation constant of crypto.js line 73. -/
def testMessage : Val := .vStr "key_validation_test"

/-- The per-user salt slot key. -/
def saltKeyOf (userId : String) : String := "app_salt_" ++ userId

/-- The per-user validation-probe slot key. -/
def testKeyOf (userId : String) : String := "key_test_" ++ userId

/-- The per-user vault-existence marker slot key. -/
def vaultKeyOf (userId : String) : String := "user_vault_" ++ userId

/-- Second half of `CryptoManager.initialize` (crypto.js lines 67-89), after
the salt is settled: sets `this.key` and `this.userId`, then either
validates against the persisted probe, or — when no probe is persisted —
seals the validation constant under the fresh key, persists it and returns
true (probe bootstrapping). On a failed validation the state, in particular
the freshly set key, is kept (the code only returns false). -/
def initStep2 (st : CryptoSt) (k : DKey) (userId : String) : Bool × CryptoSt :=
  let st2 : CryptoSt := { st with key := some k, userId := some userId }
  let testData := getItem st2.store (testKeyOf userId)
  if truthy testData then
    match decrypt st2 (testData.getD (.vStr "")) with
    | .ok d => (decide (d = testMessage), st2)
    | .error _ => (false, st2)
  else
    match encrypt st2 testMessage with
    | .ok (env, st3) => (true, { st3 with store := setItem st3.store (testKeyOf userId) env })
    | .error _ => (false, st2)

/-- `CryptoManager.initialize` (crypto.js lines 52-94) — the unlock
operation of the spec. Loads the persisted salt, or, when none is stored,
generates and persists a fresh 16-byte salt; re-parses the hex string into
bytes; derives the key; then validates or bootstraps the validation probe
(`initStep2`). Never throws: the body is wrapped in try/catch returning
false, and within this model no modelled step can fail before the key is
derived. -/
def initVault (st : CryptoSt) (passphrase : String) (userId : String) : Bool × CryptoSt :=
  let stored := getItem st.store (saltKeyOf userId)
  if truthy stored then
    initStep2 st (deriveKey passphrase (hexToBytes ((stored.map Val.asString).getD ""))) userId
  else
    let saltArr := tapeBytes st.tape st.pos 16
    let st1 : CryptoSt :=
      { st with pos := st.pos + 16,
                store := setItem st.store (saltKeyOf userId) (.vStr (bytesToHex saltArr)) }
    initStep2 st1 (deriveKey passphrase (hexToBytes (bytesToHex saltArr))) userId

/-- `CryptoManager.createUserVault` (crypto.js lines 102-133): removes the
vault marker, the salt and the probe, generates and persists a fresh
16-byte salt, runs `initialize`, and on success writes the vault marker and
the current-user slot. -/
def createUserVault (st : CryptoSt) (passphrase : String) (userId : String) : Bool × CryptoSt :=
  let store1 := removeItem (removeItem (removeItem st.store (vaultKeyOf userId)) (saltKeyOf userId)) (testKeyOf userId)
  let saltArr := tapeBytes st.tape st.pos 16
  let st1 : CryptoSt :=
    { st with pos := st.pos + 16,
              store := setItem store1 (saltKeyOf userId) (.vStr (bytesToHex saltArr)) }
  let res := initVault st1 passphrase userId
  if res.1 then
    (true, { res.2 with
             store := setItem (setItem res.2.store (vaultKeyOf userId) (.vStr "true"))
                        "current_user" (.vStr userId) })
  else
    (false, res.2)

/-- `CryptoManager.isInitialized` (crypto.js lines 319-321). -/
def isInitialized (st : CryptoSt) : Bool := st.key.isSome

/-- `CryptoManager.clear` (crypto.js lines 311-313) — the lock operation. -/
def clear (st : CryptoSt) : CryptoSt := { st with key := none }

/-- A note record as handled by `encryptNote`/`decryptNote`: the sensitive
fields title/content/tags may hold plain strings or envelopes; `id` stands
for the fields copied verbatim by the object spread; `encrypted` is the
flag (false also models an absent flag, both being falsy). An absent or
empty tag array is the empty list. -/
structure Note where
  id : String
  title : Val
  content : Val
  tags : List Val
  encrypted : Bool
deriving DecidableEq, Repr

/-- Sequential sealing of the tag array (`Promise.all(tags.map(tag =>
this.encrypt(tag)))`, crypto.js lines 256-260; the ivs are drawn in array
order since `getRandomValues` runs synchronously per call). -/
def encryptList (st : CryptoSt) : List Val → Except String (List Val × CryptoSt)
  | [] => .ok ([], st)
  | v :: rest =>
      match encrypt st v with
      | .error e => .error e
      | .ok (ev, st1) =>
          match encryptList st1 rest with
          | .error e => .error e
          | .ok (evs, st2) => .ok (ev :: evs, st2)

/-- Opening of the tag array (crypto.js lines 285-289); `decrypt` does not
change the state. -/
def decryptList (st : CryptoSt) : List Val → Except String (List Val)
  | [] => .ok []
  | v :: rest =>
      match decrypt st v with
      | .error e => .error e
      | .ok d =>
          match decryptList st rest with
          | .error e => .error e
          | .ok ds => .ok (d :: ds)

/-- `CryptoManager.encryptNote` (crypto.js lines 246-264): copies the note,
seals each truthy sensitive field independently, and sets `encrypted`. -/
def encryptNote (st : CryptoSt) (note : Note) : Except String (Note × CryptoSt) :=
  match (if truthyV note.title then encrypt st note.title else .ok (note.title, st)) with
  | .error e => .error e
  | .ok (t, st1) =>
      match (if truthyV note.content then encrypt st1 note.content else .ok (note.content, st1)) with
      | .error e => .error e
      | .ok (c, st2) =>
          match (if note.tags.length > 0 then encryptList st2 note.tags else .ok (note.tags, st2)) with
          | .error e => .error e
          | .ok (tg, st3) =>
              .ok ({ note with title := t, content := c, tags := tg, encrypted := true }, st3)

/-- `CryptoManager.decryptNote` (crypto.js lines 271-293): a note whose
`encrypted` flag is falsy is returned unchanged; otherwise each truthy
sensitive field is opened and `encrypted` is set to false. -/
def decryptNote (st : CryptoSt) (note : Note) : Except String Note :=
  if !note.encrypted then .ok note
  else
    match (if truthyV note.title then decrypt st note.title else .ok note.title) with
    | .error e => .error e
    | .ok t =>
        match (if truthyV note.content then decrypt st note.content else .ok note.content) with
        | .error e => .error e
        | .ok c =>
            match (if note.tags.length > 0 then decryptList st note.tags else .ok note.tags) with
            | .error e => .error e
            | .ok tg => .ok { note with title := t, content := c, tags := tg, encrypted := false }

/-- The empty starting configuration: nothing persisted, no key held, the
random tape enumerating the naturals. -/
def st0 : CryptoSt := ⟨none, none, [], fun n => n, 0⟩

/-- A persisted vault for user "u": salt "01" and a probe sealed under the
key of the original passphrase. -/
def stProbe : CryptoSt :=
  ⟨none, none,
   [(testKeyOf "u", .vEnv [3] ⟨"right", [1]⟩ [3] testMessage),
    (saltKeyOf "u", .vStr "01")],
   fun n => n, 0⟩

/-- A vault for user "u" whose creation did not complete the probe write:
salt persisted, probe absent. -/
def stSaltOnly : CryptoSt := ⟨none, none, [(saltKeyOf "u", .vStr "00ff")], fun n => n, 0⟩

/-- The key derived from passphrase "pw" and salt bytes [1, 2]. -/
def kW : DKey := ⟨"pw", [1, 2]⟩

/-- A manager holding active key `kW` over empty storage. -/
def stK : CryptoSt := ⟨some kW, none, [], fun n => n, 0⟩

/-- A manager holding a key different from `kW` over empty storage. -/
def stK2 : CryptoSt := ⟨some ⟨"other", [1, 2]⟩, none, [], fun n => n, 0⟩

/-- A plaintext note with a non-ASCII title and an empty tag list. -/
def noteW : Note := ⟨"id1", .vStr "Grüße ☺", .vStr "milk, eggs", [], false⟩

theorem hexVal_hexDigit : ∀ n < 16, hexVal (hexDigit n) = n := by decide

theorem hexPairs_byteToHexChars (b : Nat) (hb : b < 256) (rest : List Char) :
    hexPairs (byteToHexChars b ++ rest) = b :: hexPairs rest := by
  have h1 : b / 16 < 16 := Nat.div_lt_of_lt_mul (by omega)
  have h2 : b % 16 < 16 := Nat.mod_lt _ (by omega)
  simp only [byteToHexChars, List.cons_append, List.nil_append, hexPairs]
  rw [hexVal_hexDigit _ h1, hexVal_hexDigit _ h2]
  congr 1
  omega

theorem hexToBytes_bytesToHex (bs : List Nat) (h : ∀ b ∈ bs, b < 256) :
    hexToBytes (bytesToHex bs) = bs := by
  induction bs with
  | nil => rfl
  | cons b rest ih =>
      have hb : b < 256 := h b (by simp)
      have hrest : ∀ x ∈ rest, x < 256 := fun x hx => h x (by simp [hx])
      simp only [hexToBytes, bytesToHex, List.flatMap_cons] at *
      rw [hexPairs_byteToHexChars b hb]
      exact congrArg (b :: ·) (ih hrest)

theorem tapeBytes_lt (tape : Nat → Nat) : ∀ (n pos : Nat), ∀ b ∈ tapeBytes tape pos n, b < 256 := by
  intro n
  induction n with
  | zero => intro pos b hb; simp [tapeBytes] at hb
  | succ m ih =>
      intro pos b hb
      simp only [tapeBytes, List.mem_cons] at hb
      rcases hb with h | h
      · subst h; exact Nat.mod_lt _ (by omega)
      · exact ih _ b h

theorem tape_hex_roundtrip (tape : Nat → Nat) (pos n : Nat) :
    hexToBytes (bytesToHex (tapeBytes tape pos n)) = tapeBytes tape pos n :=
  hexToBytes_bytesToHex _ (tapeBytes_lt tape n pos)

theorem bytesToHex_ne_empty (b : Nat) (bs : List Nat) : bytesToHex (b :: bs) ≠ "" := by
  intro h
  have h' := congrArg String.data h
  simp [bytesToHex, byteToHexChars] at h'

theorem getItem_setItem_self (s : Store) (k : String) (v : Val) :
    getItem (setItem s k v) k = some v := by
  simp [getItem, setItem, List.find?]

theorem getItem_setItem_ne (s : Store) (k1 k2 : String) (v : Val) (h : k1 ≠ k2) :
    getItem (setItem s k1 v) k2 = getItem s k2 := by
  simp only [getItem, setItem, List.find?]
  rw [show (k1 == k2) = false from beq_eq_false_iff_ne.mpr h]

theorem getItem_removeItem_self (s : Store) (k : String) :
    getItem (removeItem s k) k = none := by
  induction s with
  | nil => rfl
  | cons p rest ih =>
      by_cases hp : p.1 = k
      · simp only [removeItem, List.filter] at *
        rw [show (p.1 != k) = false by simp [hp]]
        exact ih
      · simp only [getItem, removeItem, List.filter] at *
        rw [show (p.1 != k) = true by simpa using hp]
        simp only [List.find?]
        rw [show (p.1 == k) = false from beq_eq_false_iff_ne.mpr hp]
        exact ih

theorem getItem_removeItem_ne (s : Store) (k1 k2 : String) (h : k1 ≠ k2) :
    getItem (removeItem s k1) k2 = getItem s k2 := by
  induction s with
  | nil => rfl
  | cons p rest ih =>
      by_cases hp : p.1 = k1
      · have : (p.1 == k2) = false := beq_eq_false_iff_ne.mpr (hp ▸ h)
        simp only [getItem, removeItem, List.filter] at *
        rw [show (p.1 != k1) = false by simpa using hp]
        rw [ih]
        simp only [getItem, List.find?, this]
      · simp only [getItem, removeItem, List.filter] at *
        rw [show (p.1 != k1) = true by simpa using hp]
        simp only [List.find?]
        cases hq : (p.1 == k2) with
        | true => simp
        | false => exact ih

theorem saltKeyOf_data (u : String) :
    (saltKeyOf u).data = 'a' :: 'p' :: 'p' :: '_' :: 's' :: 'a' :: 'l' :: 't' :: '_' :: u.data := by
  cases u; rfl

theorem testKeyOf_data (u : String) :
    (testKeyOf u).data = 'k' :: 'e' :: 'y' :: '_' :: 't' :: 'e' :: 's' :: 't' :: '_' :: u.data := by
  cases u; rfl

theorem vaultKeyOf_data (u : String) :
    (vaultKeyOf u).data = 'u' :: 's' :: 'e' :: 'r' :: '_' :: 'v' :: 'a' :: 'u' :: 'l' :: 't' :: '_' :: u.data := by
  cases u; rfl

theorem saltKey_ne_testKey (u v : String) : saltKeyOf u ≠ testKeyOf v := by
  intro h
  have h' := congrArg String.data h
  rw [saltKeyOf_data, testKeyOf_data] at h'
  simp at h'

theorem vaultKey_ne_saltKey (u v : String) : vaultKeyOf u ≠ saltKeyOf v := by
  intro h
  have h' := congrArg String.data h
  rw [vaultKeyOf_data, saltKeyOf_data] at h'
  simp at h'

theorem vaultKey_ne_testKey (u v : String) : vaultKeyOf u ≠ testKeyOf v := by
  intro h
  have h' := congrArg String.data h
  rw [vaultKeyOf_data, testKeyOf_data] at h'
  simp at h'

theorem currentUser_ne_saltKey (u : String) : "current_user" ≠ saltKeyOf u := by
  intro h
  have h' := congrArg String.data h
  rw [saltKeyOf_data] at h'
  simp at h'

theorem currentUser_ne_testKey (u : String) : "current_user" ≠ testKeyOf u := by
  intro h
  have h' := congrArg String.data h
  rw [testKeyOf_data] at h'
  simp at h'

theorem initStep2_validate_ok (st : CryptoSt) (k : DKey) (u : String) (pv d : Val)
    (hp : getItem st.store (testKeyOf u) = some pv) (ht : truthyV pv = true)
    (hopen : openEnvelope k pv = .ok d) :
    initStep2 st k u = (decide (d = testMessage), ⟨some k, some u, st.store, st.tape, st.pos⟩) := by
  simp only [initStep2, hp, truthy, Option.getD_some, decrypt]
  simp only [truthyV] at ht
  simp [ht, hopen]

theorem initStep2_validate_err (st : CryptoSt) (k : DKey) (u : String) (pv : Val) (e : String)
    (hp : getItem st.store (testKeyOf u) = some pv) (ht : truthyV pv = true)
    (hopen : openEnvelope k pv = .error e) :
    initStep2 st k u = (false, ⟨some k, some u, st.store, st.tape, st.pos⟩) := by
  simp only [initStep2, hp, truthy, Option.getD_some, decrypt]
  simp only [truthyV] at ht
  simp [ht, hopen]

theorem initStep2_bootstrap (st : CryptoSt) (k : DKey) (u : String)
    (hp : truthy (getItem st.store (testKeyOf u)) = false) :
    initStep2 st k u =
      (true, ⟨some k, some u,
              setItem st.store (testKeyOf u)
                (.vEnv (tapeBytes st.tape st.pos 12) k (tapeBytes st.tape st.pos 12) testMessage),
              st.tape, st.pos + 12⟩) := by
  simp [initStep2, hp, encrypt]

theorem initVault_with_salt (st : CryptoSt) (pw u h : String)
    (hsalt : getItem st.store (saltKeyOf u) = some (.vStr h)) (hne : h ≠ "") :
    initVault st pw u = initStep2 st (deriveKey pw (hexToBytes h)) u := by
  simp [initVault, hsalt, truthy, Val.asString, hne]

theorem initVault_no_salt (st : CryptoSt) (pw u : String)
    (hsalt : truthy (getItem st.store (saltKeyOf u)) = false) :
    initVault st pw u =
      initStep2
        ⟨st.key, st.userId,
         setItem st.store (saltKeyOf u) (.vStr (bytesToHex (tapeBytes st.tape st.pos 16))),
         st.tape, st.pos + 16⟩
        (deriveKey pw (hexToBytes (bytesToHex (tapeBytes st.tape st.pos 16)))) u := by
  simp [initVault, hsalt]

theorem tapeBytes_succ (tape : Nat → Nat) (pos n : Nat) :
    tapeBytes tape pos (n + 1) = tape pos % 256 :: tapeBytes tape (pos + 1) n := rfl

theorem salt16_ne_empty (tape : Nat → Nat) (pos : Nat) :
    bytesToHex (tapeBytes tape pos 16) ≠ "" := by
  rw [show (16 : Nat) = 15 + 1 from rfl, tapeBytes_succ]
  exact bytesToHex_ne_empty _ _

theorem truthyV_vEnv (iv1 : List Nat) (k : DKey) (iv2 : List Nat) (d : Val) :
    truthyV (.vEnv iv1 k iv2 d) = true := rfl

theorem openEnvelope_same (k : DKey) (iv : List Nat) (d : Val) :
    openEnvelope k (.vEnv iv k iv d) = .ok d := by
  simp [openEnvelope]

theorem createUserVault_eq (st : CryptoSt) (pw u : String) :
    createUserVault st pw u =
      (true,
       ⟨some (deriveKey pw (tapeBytes st.tape st.pos 16)), some u,
        setItem
          (setItem
            (setItem
              (setItem
                (removeItem (removeItem (removeItem st.store (vaultKeyOf u)) (saltKeyOf u)) (testKeyOf u))
                (saltKeyOf u) (.vStr (bytesToHex (tapeBytes st.tape st.pos 16))))
              (testKeyOf u)
              (.vEnv (tapeBytes st.tape (st.pos + 16) 12) (deriveKey pw (tapeBytes st.tape st.pos 16))
                     (tapeBytes st.tape (st.pos + 16) 12) testMessage))
            (vaultKeyOf u) (.vStr "true"))
          "current_user" (.vStr u),
        st.tape, st.pos + 16 + 12⟩) := by
  simp only [createUserVault]
  rw [initVault_with_salt _ pw u _ (getItem_setItem_self _ _ _) (salt16_ne_empty _ _)]
  rw [tape_hex_roundtrip]
  rw [initStep2_bootstrap]
  · rfl
  · rw [getItem_setItem_ne _ _ _ _ (saltKey_ne_testKey u u), getItem_removeItem_self]
    rfl

theorem tapeBytes_length (tape : Nat → Nat) : ∀ (n pos : Nat), (tapeBytes tape pos n).length = n := by
  intro n
  induction n with
  | zero => intro pos; rfl
  | succ m ih => intro pos; simp [tapeBytes, ih]

theorem currentUser_ne_vaultKey (u : String) : "current_user" ≠ vaultKeyOf u := by
  intro h
  have h' := congrArg String.data h
  rw [vaultKeyOf_data] at h'
  simp at h'

theorem getItem_final_salt (cl : Store) (u : String) (hv pv tv uv : Val) :
    getItem (setItem (setItem (setItem (setItem cl (saltKeyOf u) hv) (testKeyOf u) pv)
      (vaultKeyOf u) tv) "current_user" uv) (saltKeyOf u) = some hv := by
  rw [getItem_setItem_ne _ _ _ _ (currentUser_ne_saltKey u),
      getItem_setItem_ne _ _ _ _ (vaultKey_ne_saltKey u u),
      getItem_setItem_ne _ _ _ _ (Ne.symm (saltKey_ne_testKey u u)),
      getItem_setItem_self]

theorem getItem_final_test (cl : Store) (u : String) (hv pv tv uv : Val) :
    getItem (setItem (setItem (setItem (setItem cl (saltKeyOf u) hv) (testKeyOf u) pv)
      (vaultKeyOf u) tv) "current_user" uv) (testKeyOf u) = some pv := by
  rw [getItem_setItem_ne _ _ _ _ (currentUser_ne_testKey u),
      getItem_setItem_ne _ _ _ _ (vaultKey_ne_testKey u u),
      getItem_setItem_self]

theorem getItem_final_vault (cl : Store) (u : String) (hv pv tv uv : Val) :
    getItem (setItem (setItem (setItem (setItem cl (saltKeyOf u) hv) (testKeyOf u) pv)
      (vaultKeyOf u) tv) "current_user" uv) (vaultKeyOf u) = some tv := by
  rw [getItem_setItem_ne _ _ _ _ (currentUser_ne_vaultKey u),
      getItem_setItem_self]

/-- C4: a successful createVault followed by unlock with the same
passphrase succeeds and yields the very key produced during creation,
because derivation is deterministic over (passphrase, salt) and the salt
persisted at creation is the one loaded at unlock. -/
theorem c4_create_then_unlock_same_key (st : CryptoSt) (pw u : String) :
    (createUserVault st pw u).1 = true ∧
    ( initVault (createUserVault st pw u).2 pw u).1 = true ∧
    ( initVault (createUserVault st pw u).2 pw u).2.key = (createUserVault st pw u).2.key ∧
    (createUserVault st pw u).2.key = some (deriveKey pw (tapeBytes st.tape st.pos 16)) := by
  rw [createUserVault_eq]
  rw [initVault_with_salt _ pw u _ (getItem_final_salt _ _ _ _ _ _) (salt16_ne_empty _ _)]
  rw [tape_hex_roundtrip]
  rw [initStep2_validate_ok _ _ _ _ _ (getItem_final_test _ _ _ _ _ _)
        (truthyV_vEnv _ _ _ _) (openEnvelope_same _ _ _)]
  simp

/-- C1 counterexample: an unlock attempt for a userId with no persisted
salt does not fail as NoSuchVault; on empty storage it returns true,
persists a fresh salt and retains a derived key. -/
theorem c1_counterexample :
    ( initVault st0 "pw" "alice").1 = true ∧
    getItem ( initVault st0 "pw" "alice").2.store (saltKeyOf "alice") ≠ none ∧
    ( initVault st0 "pw" "alice").2.key ≠ none := by decide

/-- C1 (amended): for every userId with no persisted salt (and no persisted
probe), unlock does not fail: it generates and persists a fresh 16-byte
salt, derives and retains a key from the candidate passphrase, seals and
persists a fresh validation probe, and reports success. -/
theorem c1_unlock_without_salt_creates_vault (st : CryptoSt) (pw u : String)
    (hsalt : truthy (getItem st.store (saltKeyOf u)) = false)
    (hprobe : truthy (getItem st.store (testKeyOf u)) = false) :
    ( initVault st pw u).1 = true ∧
    ( initVault st pw u).2.key = some (deriveKey pw (tapeBytes st.tape st.pos 16)) ∧
    getItem ( initVault st pw u).2.store (saltKeyOf u)
      = some (.vStr (bytesToHex (tapeBytes st.tape st.pos 16))) ∧
    getItem ( initVault st pw u).2.store (testKeyOf u)
      = some (.vEnv (tapeBytes st.tape (st.pos + 16) 12)
                    (deriveKey pw (tapeBytes st.tape st.pos 16))
                    (tapeBytes st.tape (st.pos + 16) 12) testMessage) := by
  rw [initVault_no_salt _ _ _ hsalt, tape_hex_roundtrip]
  rw [initStep2_bootstrap]
  · refine ⟨rfl, rfl, ?_, ?_⟩
    · rw [getItem_setItem_ne _ _ _ _ (Ne.symm (saltKey_ne_testKey u u)),
          getItem_setItem_self]
    · exact getItem_setItem_self _ _ _
  · rw [getItem_setItem_ne _ _ _ _ (saltKey_ne_testKey u u)]
    exact hprobe

theorem c1_witness :
    ( initVault st0 "pw" "bob").1 = true :=
  (c1_unlock_without_salt_creates_vault st0 "pw" "bob" rfl rfl).1

/-- C2 counterexample: after creating a vault, an unlock attempt with a
wrong passphrase returns a negative result, but the manager does not
remain Uninitialized: the wrongly derived key is retained, so a
subsequent encrypt/decrypt call does find an active key. -/
theorem c2_counterexample :
    (createUserVault st0 "pw1" "u").1 = true ∧
    ( initVault (createUserVault st0 "pw1" "u").2 "wrong" "u").1 = false ∧
    ( initVault (createUserVault st0 "pw1" "u").2 "wrong" "u").2.key ≠ none ∧
    isInitialized ( initVault (createUserVault st0 "pw1" "u").2 "wrong" "u").2 = true := by
  decide

/-- C2 (amended): when opening the persisted probe fails (wrong
passphrase), unlock returns a negative result without throwing and writes
nothing, but the manager does not remain Uninitialized: the key freshly
derived from the wrong passphrase stays retained, so isInitialized reports
true and a subsequent encrypt finds an active key. -/
theorem c2_wrong_pass_negative_but_key_retained (st : CryptoSt) (pw u h : String)
    (iv : List Nat) (k1 : DKey) (d : Val)
    (hsalt : getItem st.store (saltKeyOf u) = some (.vStr h)) (hne : h ≠ "")
    (hprobe : getItem st.store (testKeyOf u) = some (.vEnv iv k1 iv d))
    (hk : deriveKey pw (hexToBytes h) ≠ k1) :
    ( initVault st pw u).1 = false ∧
    ( initVault st pw u).2.key = some (deriveKey pw (hexToBytes h)) ∧
    isInitialized ( initVault st pw u).2 = true ∧
    ( initVault st pw u).2.store = st.store := by
  rw [initVault_with_salt _ _ _ _ hsalt hne]
  rw [initStep2_validate_err _ _ _ _ authFailureMsg hprobe (truthyV_vEnv _ _ _ _) ?herr]
  · exact ⟨rfl, rfl, rfl, rfl⟩
  case herr =>
    simp only [openEnvelope]
    rw [if_neg]
    intro hcon
    exact hk hcon.1.symm

theorem c2_witness :
    ( initVault stProbe "wrong" "u").1 = false ∧
    isInitialized ( initVault stProbe "wrong" "u").2 = true :=
  ⟨(c2_wrong_pass_negative_but_key_retained stProbe "wrong" "u" "01" [3] ⟨"right", [1]⟩
      testMessage (by decide) (by decide) (by decide) (by decide)).1,
   (c2_wrong_pass_negative_but_key_retained stProbe "wrong" "u" "01" [3] ⟨"right", [1]⟩
      testMessage (by decide) (by decide) (by decide) (by decide)).2.2.1⟩

/-- C3: on a vault whose salt is persisted but whose probe is absent,
unlock bootstraps: it seals the validation constant under the freshly
derived key, persists that probe and accepts the unlock; and when a probe
is already persisted this path is not taken — the unlock attempt leaves
the store untouched. -/
theorem c3_probe_bootstrap (st : CryptoSt) (pw u h : String)
    (hsalt : getItem st.store (saltKeyOf u) = some (.vStr h)) (hne : h ≠ "") :
    (getItem st.store (testKeyOf u) = none →
      ( initVault st pw u).1 = true ∧
      ( initVault st pw u).2.key = some (deriveKey pw (hexToBytes h)) ∧
      getItem ( initVault st pw u).2.store (testKeyOf u)
        = some (.vEnv (tapeBytes st.tape st.pos 12) (deriveKey pw (hexToBytes h))
                      (tapeBytes st.tape st.pos 12) testMessage)) ∧
    (∀ pv : Val, getItem st.store (testKeyOf u) = some pv → truthyV pv = true →
      ( initVault st pw u).2.store = st.store) := by
  constructor
  · intro hnone
    rw [initVault_with_salt _ _ _ _ hsalt hne, initStep2_bootstrap]
    · exact ⟨rfl, rfl, getItem_setItem_self _ _ _⟩
    · rw [hnone]; rfl
  · intro pv hpv htr
    rw [initVault_with_salt _ _ _ _ hsalt hne]
    cases hod : openEnvelope (deriveKey pw (hexToBytes h)) pv with
    | ok d => rw [initStep2_validate_ok _ _ _ _ _ hpv htr hod]
    | error e => rw [initStep2_validate_err _ _ _ _ _ hpv htr hod]

theorem c3_witness :
    ( initVault stSaltOnly "pw" "u").1 = true :=
  (((c3_probe_bootstrap stSaltOnly "pw" "u" "00ff" (by decide) (by decide)).1) (by decide)).1

/-- C5: for every active key and plaintext string, opening the envelope
produced by seal under the same key returns exactly the original
plaintext: decrypt(encrypt(data)) = data. -/
theorem c5_decrypt_encrypt_roundtrip (st : CryptoSt) (k : DKey) (s : String)
    (hk : st.key = some k) :
    encrypt st (.vStr s)
      = .ok (.vEnv (tapeBytes st.tape st.pos 12) k (tapeBytes st.tape st.pos 12) (.vStr s),
             { st with pos := st.pos + 12 }) ∧
    decrypt { st with pos := st.pos + 12 }
        (.vEnv (tapeBytes st.tape st.pos 12) k (tapeBytes st.tape st.pos 12) (.vStr s))
      = .ok (.vStr s) := by
  constructor
  · simp [encrypt, hk]
  · simp [decrypt, hk, openEnvelope_same]

theorem c5_witness :
    decrypt { stK with pos := stK.pos + 12 }
        (.vEnv (tapeBytes stK.tape stK.pos 12) kW (tapeBytes stK.tape stK.pos 12) (.vStr "hello"))
      = .ok (.vStr "hello") :=
  (c5_decrypt_encrypt_roundtrip stK kW "hello" rfl).2

/-- C6: opening an envelope under a key different from the sealing key
fails with the authentication-failure error, and the failure carries no
partial plaintext. -/
theorem c6_wrong_key_auth_failure (st1 st2 : CryptoSt) (k1 k2 : DKey) (s : String)
    (env : Val) (st1' : CryptoSt)
    (h1 : st1.key = some k1) (h2 : st2.key = some k2) (hne : k1 ≠ k2)
    (henc : encrypt st1 (.vStr s) = .ok (env, st1')) :
    decrypt st2 env = .error authFailureMsg := by
  simp only [encrypt, h1, Except.ok.injEq, Prod.mk.injEq] at henc
  obtain ⟨henv, -⟩ := henc
  rw [← henv]
  simp [decrypt, h2, openEnvelope, hne]

theorem c6_witness :
    decrypt stK2 (.vEnv (tapeBytes stK.tape stK.pos 12) kW (tapeBytes stK.tape stK.pos 12) (.vStr "m"))
      = .error authFailureMsg :=
  c6_wrong_key_auth_failure stK stK2 kW ⟨"other", [1, 2]⟩ "m"
    (.vEnv (tapeBytes stK.tape stK.pos 12) kW (tapeBytes stK.tape stK.pos 12) (.vStr "m"))
    { stK with pos := stK.pos + 12 } rfl rfl (by decide) rfl

/-- C7: two seal calls with the same key and plaintext draw fresh 12-byte
nonces; whenever the drawn randomness differs the two envelopes differ,
and both open to the same plaintext. -/
theorem c7_fresh_nonce_distinct_envelopes (st : CryptoSt) (k : DKey) (s : String)
    (hk : st.key = some k)
    (hr : st.tape st.pos % 256 ≠ st.tape (st.pos + 12) % 256) :
    encrypt st (.vStr s)
      = .ok (.vEnv (tapeBytes st.tape st.pos 12) k (tapeBytes st.tape st.pos 12) (.vStr s),
             { st with pos := st.pos + 12 }) ∧
    encrypt { st with pos := st.pos + 12 } (.vStr s)
      = .ok (.vEnv (tapeBytes st.tape (st.pos + 12) 12) k (tapeBytes st.tape (st.pos + 12) 12) (.vStr s),
             { st with pos := st.pos + 12 + 12 }) ∧
    (Val.vEnv (tapeBytes st.tape st.pos 12) k (tapeBytes st.tape st.pos 12) (.vStr s)
      ≠ .vEnv (tapeBytes st.tape (st.pos + 12) 12) k (tapeBytes st.tape (st.pos + 12) 12) (.vStr s)) ∧
    decrypt { st with pos := st.pos + 12 }
        (.vEnv (tapeBytes st.tape st.pos 12) k (tapeBytes st.tape st.pos 12) (.vStr s))
      = .ok (.vStr s) ∧
    decrypt { st with pos := st.pos + 12 + 12 }
        (.vEnv (tapeBytes st.tape (st.pos + 12) 12) k (tapeBytes st.tape (st.pos + 12) 12) (.vStr s))
      = .ok (.vStr s) := by
  refine ⟨by simp [encrypt, hk], by simp [encrypt, hk], ?_, by simp [decrypt, hk, openEnvelope_same],
          by simp [decrypt, hk, openEnvelope_same]⟩
  intro he
  have hiv : tapeBytes st.tape st.pos 12 = tapeBytes st.tape (st.pos + 12) 12 := by
    injection he
  rw [show (12 : Nat) = 11 + 1 from rfl] at hiv
  rw [tapeBytes_succ, tapeBytes_succ] at hiv
  exact hr (List.head_eq_of_cons_eq hiv)

theorem c7_witness :
    (Val.vEnv (tapeBytes stK.tape stK.pos 12) kW (tapeBytes stK.tape stK.pos 12) (.vStr "x")
      ≠ .vEnv (tapeBytes stK.tape (stK.pos + 12) 12) kW (tapeBytes stK.tape (stK.pos + 12) 12) (.vStr "x")) :=
  (c7_fresh_nonce_distinct_envelopes stK kW "x" rfl (by decide)).2.2.1

theorem encryptField_ok (k : DKey) (st : CryptoSt) (v : Val) (hk : st.key = some k) :
    ∃ ev st1, (if truthyV v then encrypt st v else .ok (v, st)) = .ok (ev, st1) ∧
      st1.key = some k ∧ st1.store = st.store ∧ st1.tape = st.tape ∧
      ∀ st2 : CryptoSt, st2.key = some k →
        (if truthyV ev then decrypt st2 ev else .ok ev) = .ok v := by
  by_cases ht : truthyV v = true
  · refine ⟨.vEnv (tapeBytes st.tape st.pos 12) k (tapeBytes st.tape st.pos 12) v,
            { st with pos := st.pos + 12 }, ?_, hk, rfl, rfl, ?_⟩
    · simp [ht, encrypt, hk]
    · intro st2 hk2
      simp [truthyV_vEnv, decrypt, hk2, openEnvelope_same]
  · refine ⟨v, st, ?_, hk, rfl, rfl, ?_⟩
    · simp [ht]
    · intro st2 _
      simp [ht]

theorem encryptList_ok (k : DKey) : ∀ (l : List Val) (st : CryptoSt), st.key = some k →
    ∃ es st1, encryptList st l = .ok (es, st1) ∧
      st1.key = some k ∧ st1.store = st.store ∧ st1.tape = st.tape ∧
      es.length = l.length ∧
      ∀ st2 : CryptoSt, st2.key = some k → decryptList st2 es = .ok l := by
  intro l
  induction l with
  | nil => exact fun st hk => ⟨[], st, rfl, hk, rfl, rfl, rfl, fun st2 _ => rfl⟩
  | cons v rest ih =>
      intro st hk
      obtain ⟨es, st1, h1, h2, h3, h4, h5, h6⟩ :=
        ih ⟨some k, st.userId, st.store, st.tape, st.pos + 12⟩ rfl
      refine ⟨.vEnv (tapeBytes st.tape st.pos 12) k (tapeBytes st.tape st.pos 12) v :: es,
              st1, ?_, h2, h3, h4, by simp [h5], ?_⟩
      · simp [encryptList, encrypt, hk, h1]
      · intro st2 hk2
        simp [decryptList, decrypt, hk2, openEnvelope_same, h6 st2 hk2]

/-- C8: while a key is active, encryptNote always succeeds, sealing each
sensitive field independently, and decryptNote applied to its output
reproduces exactly the original title, content and tags (including an
empty tag list and non-ASCII text). -/
theorem c8_note_roundtrip (st : CryptoSt) (k : DKey) (note : Note)
    (hk : st.key = some k) :
    (∃ en st1, encryptNote st note = .ok (en, st1)) ∧
    (∀ (en : Note) (st1 : CryptoSt), encryptNote st note = .ok (en, st1) →
      decryptNote st1 en = .ok { note with encrypted := false }) := by
  obtain ⟨t, stA, hA1, hA2, hA3, hA4, hA5⟩ := encryptField_ok k st note.title hk
  obtain ⟨c, stB, hB1, hB2, hB3, hB4, hB5⟩ := encryptField_ok k stA note.content hA2
  have henc : ∃ tg stC, encryptNote st note
      = .ok ({ note with title := t, content := c, tags := tg, encrypted := true }, stC) ∧
      stC.key = some k ∧
      (if tg.length > 0 then decryptList stC note.tags = decryptList stC note.tags else True) ∧
      tg.length = note.tags.length ∧
      ∀ st2 : CryptoSt, st2.key = some k →
        (if tg.length > 0 then decryptList st2 tg else .ok tg) = .ok note.tags := by
    by_cases htags : note.tags.length > 0
    · obtain ⟨es, stC, hC1, hC2, hC3, hC4, hC5, hC6⟩ := encryptList_ok k note.tags stB hB2
      refine ⟨es, stC, ?_, hC2, by simp, by simp [hC5], ?_⟩
      · simp [encryptNote, hA1, hB1, htags, hC1]
      · intro st2 hk2
        rw [if_pos (by rw [hC5]; exact htags)]
        exact hC6 st2 hk2
    · refine ⟨note.tags, stB, ?_, hB2, by simp [htags], rfl, ?_⟩
      · simp [encryptNote, hA1, hB1, htags]
      · intro st2 _
        rw [if_neg htags]
  obtain ⟨tg, stC, hE, hCk, -, hlen, hdec⟩ := henc
  constructor
  · exact ⟨_, _, hE⟩
  · intro en st1 hEq
    rw [hE] at hEq
    have hpair : ({ note with title := t, content := c, tags := tg, encrypted := true } : Note) = en ∧ stC = st1 := by
      simpa [Prod.mk.injEq] using hEq
    obtain ⟨hen1, hen2⟩ := hpair
    subst hen2
    rw [← hen1]
    simp only [decryptNote]
    rw [if_neg (by simp)]
    rw [hA5 stC hCk, hB5 stC hCk, hdec stC hCk]

theorem c8_witness :
    decryptNote ⟨some kW, none, [], fun n => n, 24⟩
        ⟨"id1", .vEnv (tapeBytes (fun n => n) 0 12) kW (tapeBytes (fun n => n) 0 12) (.vStr "Grüße ☺"),
         .vEnv (tapeBytes (fun n => n) 12 12) kW (tapeBytes (fun n => n) 12 12) (.vStr "milk, eggs"),
         [], true⟩
      = .ok { noteW with encrypted := false } :=
  (c8_note_roundtrip stK kW noteW rfl).2 _ _ rfl

/-- C9: decryptNote on a record whose encrypted flag is falsy returns the
input unchanged, regardless of the active key. -/
theorem c9_decryptNote_passthrough (st : CryptoSt) (note : Note)
    (h : note.encrypted = false) :
    decryptNote st note = .ok note := by
  simp [decryptNote, h]

theorem c9_witness :
    decryptNote st0 noteW = .ok noteW :=
  c9_decryptNote_passthrough st0 noteW rfl

/-- C10: createUserVault deletes the previously persisted salt, probe and
vault marker and persists a freshly generated 16-byte salt, a probe sealed
under the new key, and the marker; consequently any envelope sealed under
a key derived from a different (in particular the previous) salt fails to
decrypt via the vault with an authentication failure. -/
theorem c10_createUserVault_resets (st : CryptoSt) (pw u : String) :
    (createUserVault st pw u).1 = true ∧
    getItem (createUserVault st pw u).2.store (saltKeyOf u)
      = some (.vStr (bytesToHex (tapeBytes st.tape st.pos 16))) ∧
    (tapeBytes st.tape st.pos 16).length = 16 ∧
    getItem (createUserVault st pw u).2.store (testKeyOf u)
      = some (.vEnv (tapeBytes st.tape (st.pos + 16) 12) (deriveKey pw (tapeBytes st.tape st.pos 16))
                    (tapeBytes st.tape (st.pos + 16) 12) testMessage) ∧
    getItem (createUserVault st pw u).2.store (vaultKeyOf u) = some (.vStr "true") ∧
    (∀ (kOld : DKey) (iv : List Nat) (d : Val),
       kOld.salt ≠ tapeBytes st.tape st.pos 16 →
       decrypt (createUserVault st pw u).2 (.vEnv iv kOld iv d) = .error authFailureMsg) := by
  rw [createUserVault_eq]
  refine ⟨rfl, getItem_final_salt _ _ _ _ _ _, tapeBytes_length _ _ _,
          getItem_final_test _ _ _ _ _ _, getItem_final_vault _ _ _ _ _ _, ?_⟩
  intro kOld iv d hne
  simp only [decrypt, openEnvelope]
  rw [if_neg]
  intro hcon
  exact hne (congrArg DKey.salt hcon.1)

theorem c10_witness :
    (createUserVault st0 "pw" "u").1 = true ∧
    decrypt (createUserVault st0 "pw" "u").2 (.vEnv [7] ⟨"old", [9]⟩ [7] (.vStr "x"))
      = .error authFailureMsg :=
  ⟨(c10_createUserVault_resets st0 "pw" "u").1,
   (c10_createUserVault_resets st0 "pw" "u").2.2.2.2.2 ⟨"old", [9]⟩ [7] (.vStr "x") (by decide)⟩

end PrivacyNotes
